import Mathlib

/-!
Verification of the orchestration core of the windows-ai-agent toolset:
a shallow embedding of `agent.py` (session controller and screenshot
pruning), `scenarios.py` (tool dispatch boundary) and `main.py`
(log-record scanner and time-windowed export), with proofs of the
specification's claims about those components.

Modelling conventions:
* Python `dict`s produced by `json.loads` are modelled by the inductive
  `JVal`; Python floats are modelled by `PyNum`: an exact fraction (`Q`)
  for finite values, plus `nan`/`pinf`/`ninf` with IEEE comparison
  semantics (every comparison against NaN is false), covering the
  non-standard `NaN`/`Infinity`/`-Infinity` tokens CPython's
  `json.loads` accepts by default and the `nan`/`inf` strings `float()`
  converts.
* Fallible Python code (raised exceptions caught at a boundary) is
  modelled with `Option`/`Except`.
* Side effects on the OS (the `winapi` collaborator) are recorded in an
  explicit effect trace; the screen-capture collaborator is an oracle
  argument supplying the bytes and dimensions it would return.
-/

/-- The double-quote character, written via its code point. -/
def quoteC : Char := Char.ofNat 34

/-- The backslash character, written via its code point. -/
def backslashC : Char := Char.ofNat 92

/-- The opening-brace character. -/
def lbraceC : Char := Char.ofNat 123

/-- The closing-brace character. -/
def rbraceC : Char := Char.ofNat 125

/-- Exact fractions standing in for the numeric values of the Python
program (which uses IEEE floats; this model is exact). The numerator is
an integer, the denominator a positive natural number — every
constructor in this development produces a power-of-ten denominator, and
order and value-equality are defined by cross multiplication, so no
normalization exists in the model; the non-finite float values live in
`PyNum`, which wraps this type. -/
structure Q where
  num : Int
  den : Nat
deriving DecidableEq

instance (n : Nat) : OfNat Q n := ⟨⟨(n : Int), 1⟩⟩

instance : LT Q := ⟨fun a b => a.num * (b.den : Int) < b.num * (a.den : Int)⟩

instance : LE Q := ⟨fun a b => a.num * (b.den : Int) ≤ b.num * (a.den : Int)⟩

instance (a b : Q) : Decidable (a < b) :=
  inferInstanceAs (Decidable (a.num * (b.den : Int) < b.num * (a.den : Int)))

instance (a b : Q) : Decidable (a ≤ b) :=
  inferInstanceAs (Decidable (a.num * (b.den : Int) ≤ b.num * (a.den : Int)))

/-- The exact value `signed * 10^shift` as a fraction. -/
def qOfShift (signed : Int) (shift : Int) : Q :=
  match shift with
  | .ofNat n => ⟨signed * ((10 ^ n : Nat) : Int), 1⟩
  | .negSucc n => ⟨signed, 10 ^ (n + 1)⟩

/-- An integer as a fraction. -/
def Q.ofInt (i : Int) : Q := ⟨i, 1⟩

/-- A Python float value: a finite exact fraction, an infinity, or NaN. -/
inductive PyNum where
  | fin (q : Q) : PyNum
  | pinf : PyNum
  | ninf : PyNum
  | nan : PyNum
deriving DecidableEq

instance (n : Nat) : OfNat PyNum n := ⟨.fin ⟨(n : Int), 1⟩⟩

/-- An integer as a Python float. -/
def PyNum.ofInt (i : Int) : PyNum := .fin ⟨i, 1⟩

/-- IEEE `<` on Python floats: every comparison involving NaN is false,
`-inf` is below and `+inf` above every other value, finite values compare
by cross multiplication. -/
def pyLt : PyNum → PyNum → Bool
  | .nan, _ => false
  | _, .nan => false
  | .pinf, _ => false
  | .ninf, .ninf => false
  | .ninf, _ => true
  | .fin _, .pinf => true
  | .fin _, .ninf => false
  | .fin a, .fin b => decide (a < b)

/-- IEEE `≤` on Python floats: false whenever NaN is involved. -/
def pyLe : PyNum → PyNum → Bool
  | .nan, _ => false
  | _, .nan => false
  | .pinf, .pinf => true
  | .pinf, _ => false
  | .ninf, _ => true
  | .fin _, .pinf => true
  | .fin _, .ninf => false
  | .fin a, .fin b => decide (a ≤ b)

/-- JSON values as produced by Python's `json.loads`: objects keep their
key/value pairs in textual order (Python dict insertion order). -/
inductive JVal where
  | null : JVal
  | bool (b : Bool) : JVal
  | num (x : PyNum) : JVal
  | str (s : String) : JVal
  | arr (xs : List JVal) : JVal
  | obj (kvs : List (String × JVal)) : JVal

/-- Python `dict` lookup on a parsed object: on duplicate keys
`json.loads` keeps the last occurrence, so the lookup scans from the
right. Returns `none` for missing keys and for non-objects. -/
def jget : JVal → String → Option JVal
  | .obj kvs, k => (kvs.reverse.find? (fun p => p.1 == k)).map (·.2)
  | _, _ => none

/-- Python truthiness of a JSON-decoded value. -/
def pyTruthy : JVal → Bool
  | .null => false
  | .bool b => b
  | .num (.fin q) => q.num ≠ 0
  | .num _ => true
  | .str s => s ≠ ""
  | .arr xs => ¬ xs.isEmpty
  | .obj kvs => ¬ kvs.isEmpty

/-- Truthiness of `d.get(k)`: a missing key yields Python `None`, which is
falsy. -/
def pyTruthyOpt : Option JVal → Bool
  | some v => pyTruthy v
  | none => false

/-- Python `str()` of a JSON-decoded value, as interpolated into an
f-string. Only the string case is reachable in this program (the value
comes from a `"file"` field the program itself wrote); the other cases
approximate CPython's rendering. -/
def pyStrOf : JVal → String
  | .str s => s
  | .bool b => if b then "True" else "False"
  | .null => "None"
  | .num (.fin q) =>
    if q.den = 1 then toString q.num else toString q.num ++ "/" ++ toString q.den
  | .num .nan => "nan"
  | .num .pinf => "inf"
  | .num .ninf => "-inf"
  | .arr _ => "[...]"
  | .obj _ => "\x7b...\x7d"

/-- JSON whitespace (the characters `json.loads` skips between tokens). -/
def isJsonWs (c : Char) : Bool :=
  c.toNat = 32 || c.toNat = 9 || c.toNat = 10 || c.toNat = 13

/-- Drop leading JSON whitespace. -/
def skipWs : List Char → List Char
  | [] => []
  | c :: cs => if isJsonWs c then skipWs cs else c :: cs

/-- Value of one hexadecimal digit. -/
def hexVal (c : Char) : Option Nat :=
  if 48 ≤ c.toNat ∧ c.toNat ≤ 57 then some (c.toNat - 48)
  else if 97 ≤ c.toNat ∧ c.toNat ≤ 102 then some (c.toNat - 87)
  else if 65 ≤ c.toNat ∧ c.toNat ≤ 70 then some (c.toNat - 55)
  else none

/-- The single-character JSON string escapes. -/
def simpleEsc (c : Char) : Option Char :=
  if c = quoteC then some quoteC
  else if c = backslashC then some backslashC
  else if c = '/' then some '/'
  else if c = 'b' then some (Char.ofNat 8)
  else if c = 'f' then some (Char.ofNat 12)
  else if c = 'n' then some (Char.ofNat 10)
  else if c = 'r' then some (Char.ofNat 13)
  else if c = 't' then some (Char.ofNat 9)
  else none

/-- Scan the body of a JSON string literal (after the opening quote) into
UTF-16-style code units, as CPython's scanner does: `\uXXXX` contributes
its 16-bit value, everything else its code point. Unescaped control
characters are rejected (strict mode). Returns the units and the input
remaining after the closing quote. -/
def strUnits : List Char → Option (List Nat × List Char)
  | [] => none
  | c :: cs =>
    if c = quoteC then some ([], cs)
    else if c = backslashC then
      match cs with
      | [] => none
      | e :: cs2 =>
        if e = 'u' then
          match cs2 with
          | a :: b :: c3 :: d :: cs3 =>
            match hexVal a, hexVal b, hexVal c3, hexVal d with
            | some ha, some hb, some hc, some hd =>
              match strUnits cs3 with
              | some (us, r) => some ((ha * 4096 + hb * 256 + hc * 16 + hd) :: us, r)
              | none => none
            | _, _, _, _ => none
          | _ => none
        else
          match simpleEsc e with
          | some ch =>
            match strUnits cs2 with
            | some (us, r) => some ((ch.toNat : Nat) :: us, r)
            | none => none
          | none => none
    else if c.toNat < 32 then none
    else
      match strUnits cs with
      | some (us, r) => some ((c.toNat : Nat) :: us, r)
      | none => none

/-- Combine code units into characters, pairing surrogates; the first
argument holds a pending high surrogate. CPython keeps lone surrogates
inside `str`; Lean strings hold only Unicode scalar values, so a lone
surrogate (unreachable in this program's data) maps to U+FFFD. -/
def unitsToCharsAux : Option Nat → List Nat → List Char
  | none, [] => []
  | some _, [] => [Char.ofNat 65533]
  | none, u :: rest =>
    if 55296 ≤ u ∧ u ≤ 56319 then unitsToCharsAux (some u) rest
    else if 56320 ≤ u ∧ u ≤ 57343 then Char.ofNat 65533 :: unitsToCharsAux none rest
    else Char.ofNat u :: unitsToCharsAux none rest
  | some hi, u :: rest =>
    if 56320 ≤ u ∧ u ≤ 57343 then
      Char.ofNat (65536 + (hi - 55296) * 1024 + (u - 56320)) :: unitsToCharsAux none rest
    else if 55296 ≤ u ∧ u ≤ 56319 then Char.ofNat 65533 :: unitsToCharsAux (some u) rest
    else Char.ofNat 65533 :: Char.ofNat u :: unitsToCharsAux none rest

/-- Combine code units into characters, pairing surrogates. -/
def unitsToChars (us : List Nat) : List Char := unitsToCharsAux none us

/-- Take a maximal run of decimal digits. -/
def takeDigits : List Char → List Char × List Char
  | [] => ([], [])
  | c :: cs =>
    if c.isDigit then
      let p := takeDigits cs
      (c :: p.1, p.2)
    else ([], c :: cs)

/-- Numeric value of a digit run. -/
def digitsToNatAux (acc : Nat) : List Char → Nat
  | [] => acc
  | c :: cs => digitsToNatAux (acc * 10 + (c.toNat - 48)) cs

/-- Numeric value of a digit run. -/
def digitsToNat (ds : List Char) : Nat := digitsToNatAux 0 ds

/-- Parse a JSON number per the JSON grammar
`-?(0|[1-9][0-9]*)(\.[0-9]+)?([eE][+-]?[0-9]+)?`, as an exact rational. -/
def parseNum (cs : List Char) : Option (JVal × List Char) :=
  let p0 : Bool × List Char :=
    match cs with
    | c :: r => if c = '-' then (true, r) else (false, cs)
    | [] => (false, cs)
  let neg := p0.1
  let cs1 := p0.2
  match cs1 with
  | [] => none
  | c :: _ =>
    if ¬ c.isDigit then none
    else
      let pd := takeDigits cs1
      let ds := pd.1
      let cs2 := pd.2
      if 1 < ds.length ∧ ds.head? = some '0' then none
      else
        let fracRes : Option (List Char × List Char) :=
          match cs2 with
          | c2 :: r2 =>
            if c2 = '.' then
              let pf := takeDigits r2
              if pf.1.isEmpty then none else some (pf.1, pf.2)
            else some ([], cs2)
          | [] => some ([], cs2)
        match fracRes with
        | none => none
        | some (fs, cs3) =>
          let expRes : Option (Int × List Char) :=
            match cs3 with
            | e :: r4 =>
              if e = 'e' ∨ e = 'E' then
                let ps : Int × List Char :=
                  match r4 with
                  | s :: r6 =>
                    if s = '+' then (1, r6)
                    else if s = '-' then (-1, r6)
                    else (1, r4)
                  | [] => (1, r4)
                match ps.2 with
                | c5 :: _ =>
                  if c5.isDigit then
                    let pe := takeDigits ps.2
                    some (ps.1 * (digitsToNat pe.1 : Int), pe.2)
                  else none
                | [] => none
              else some (0, cs3)
            | [] => some (0, cs3)
          match expRes with
          | none => none
          | some (ex, cs4) =>
            let mant : Int := (digitsToNat (ds ++ fs) : Int)
            let signed : Int := if neg then -mant else mant
            some (.num (.fin (qOfShift signed (ex - (fs.length : Int)))), cs4)

mutual

/-- Fuel-indexed JSON value parser (the fuel bounds nesting depth; callers
supply more fuel than the input length, so it never runs out on input the
Python decoder accepts). -/
def parseVal : Nat → List Char → Option (JVal × List Char)
  | 0, _ => none
  | fuel + 1, cs =>
    match skipWs cs with
    | [] => none
    | 'n' :: 'u' :: 'l' :: 'l' :: rest => some (.null, rest)
    | 't' :: 'r' :: 'u' :: 'e' :: rest => some (.bool true, rest)
    | 'f' :: 'a' :: 'l' :: 's' :: 'e' :: rest => some (.bool false, rest)
    | 'N' :: 'a' :: 'N' :: rest => some (.num .nan, rest)
    | 'I' :: 'n' :: 'f' :: 'i' :: 'n' :: 'i' :: 't' :: 'y' :: rest => some (.num .pinf, rest)
    | '-' :: 'I' :: 'n' :: 'f' :: 'i' :: 'n' :: 'i' :: 't' :: 'y' :: rest =>
      some (.num .ninf, rest)
    | c :: rest =>
      if c = quoteC then
        match strUnits rest with
        | some (us, r) => some (.str (String.mk (unitsToChars us)), r)
        | none => none
      else if c = lbraceC then
        match skipWs rest with
        | c2 :: r2 =>
          if c2 = rbraceC then some (.obj [], r2)
          else
            match parseObjItems fuel (skipWs rest) with
            | some (kvs, r3) => some (.obj kvs, r3)
            | none => none
        | [] => none
      else if c = '[' then
        match skipWs rest with
        | c2 :: r2 =>
          if c2 = ']' then some (.arr [], r2)
          else
            match parseArrItems fuel (skipWs rest) with
            | some (vs, r3) => some (.arr vs, r3)
            | none => none
        | [] => none
      else parseNum (c :: rest)
termination_by structural fuel => fuel

/-- Parse the non-empty member list of a JSON object, up to and including
the closing brace. -/
def parseObjItems : Nat → List Char → Option (List (String × JVal) × List Char)
  | 0, _ => none
  | fuel + 1, cs =>
    match skipWs cs with
    | c :: rest =>
      if c = quoteC then
        match strUnits rest with
        | none => none
        | some (us, r1) =>
          let key := String.mk (unitsToChars us)
          match skipWs r1 with
          | c2 :: r2 =>
            if c2 = ':' then
              match parseVal fuel r2 with
              | none => none
              | some (v, r3) =>
                match skipWs r3 with
                | c3 :: r4 =>
                  if c3 = ',' then
                    match parseObjItems fuel r4 with
                    | some (kvs, r5) => some ((key, v) :: kvs, r5)
                    | none => none
                  else if c3 = rbraceC then some ([(key, v)], r4)
                  else none
                | [] => none
            else none
          | [] => none
      else none
    | [] => none
termination_by structural fuel => fuel

/-- Parse the non-empty element list of a JSON array, up to and including
the closing bracket. -/
def parseArrItems : Nat → List Char → Option (List JVal × List Char)
  | 0, _ => none
  | fuel + 1, cs =>
    match parseVal fuel cs with
    | none => none
    | some (v, r1) =>
      match skipWs r1 with
      | c :: r2 =>
        if c = ',' then
          match parseArrItems fuel r2 with
          | some (vs, r3) => some (v :: vs, r3)
          | none => none
        else if c = ']' then some ([v], r2)
        else none
      | [] => none
termination_by structural fuel => fuel

end

/-- Model of Python's `json.loads`: parse one JSON document and require
that only whitespace follows; `none` models a raised `JSONDecodeError`. -/
def jsonLoads (s : String) : Option JVal :=
  match parseVal (2 * s.toList.length + 2) s.toList with
  | some (v, rest) => if (skipWs rest).isEmpty then some v else none
  | none => none

/-- Lowercase hexadecimal digit. -/
def hexDigitChar (n : Nat) : Char :=
  if n < 10 then Char.ofNat (48 + n) else Char.ofNat (97 + (n - 10))

/-- Four-digit lowercase hexadecimal rendering. -/
def hex4 (n : Nat) : String :=
  String.mk [hexDigitChar (n / 4096 % 16), hexDigitChar (n / 256 % 16),
             hexDigitChar (n / 16 % 16), hexDigitChar (n % 16)]

/-- Escape one character the way `json.dumps(..., ensure_ascii=True)`
does: the two mandatory escapes, the short control escapes, and `\uXXXX`
(with surrogate pairs above the BMP) for everything outside printable
ASCII. -/
def escChar (c : Char) : String :=
  if c = quoteC then String.mk [backslashC, quoteC]
  else if c = backslashC then String.mk [backslashC, backslashC]
  else if c.toNat = 10 then String.mk [backslashC, 'n']
  else if c.toNat = 9 then String.mk [backslashC, 't']
  else if c.toNat = 13 then String.mk [backslashC, 'r']
  else if c.toNat = 8 then String.mk [backslashC, 'b']
  else if c.toNat = 12 then String.mk [backslashC, 'f']
  else if c.toNat < 32 ∨ 126 < c.toNat then
    if c.toNat < 65536 then String.mk [backslashC, 'u'] ++ hex4 c.toNat
    else
      let v := c.toNat - 65536
      String.mk [backslashC, 'u'] ++ hex4 (55296 + v / 1024) ++
        String.mk [backslashC, 'u'] ++ hex4 (56320 + v % 1024)
  else String.singleton c

/-- Serialize a string literal as `json.dumps` would. -/
def dumpStr (s : String) : String :=
  String.mk [quoteC] ++ String.join (s.toList.map escChar) ++ String.mk [quoteC]

mutual

/-- Model of `json.dumps(v, ensure_ascii=True, separators=(",", ":"))`.
Numbers in the payloads this program serializes are always integers; a
non-integral fraction (unreachable here) falls back to a `num/den`
rendering. -/
def jsonDumps : JVal → String
  | .null => "null"
  | .bool b => if b then "true" else "false"
  | .num (.fin q) =>
    if q.den = 1 then toString q.num else toString q.num ++ "/" ++ toString q.den
  | .num .nan => "NaN"
  | .num .pinf => "Infinity"
  | .num .ninf => "-Infinity"
  | .str s => dumpStr s
  | .arr xs => "[" ++ dumpsArr xs ++ "]"
  | .obj kvs => String.mk [lbraceC] ++ dumpsObj kvs ++ String.mk [rbraceC]
termination_by structural v => v

/-- Comma-separated array elements. -/
def dumpsArr : List JVal → String
  | [] => ""
  | [x] => jsonDumps x
  | x :: y :: xs => jsonDumps x ++ "," ++ dumpsArr (y :: xs)
termination_by structural l => l

/-- Comma-separated `"key":value` members. -/
def dumpsObj : List (String × JVal) → String
  | [] => ""
  | [(k, v)] => dumpStr k ++ ":" ++ jsonDumps v
  | (k, v) :: p :: kvs => dumpStr k ++ ":" ++ jsonDumps v ++ "," ++ dumpsObj (p :: kvs)
termination_by structural l => l

end

/-- Python `dict.update` of one key/value pair: replace in place if the
key exists, else append. -/
def setKey : List (String × JVal) → String → JVal → List (String × JVal)
  | [], k, v => [(k, v)]
  | (k0, v0) :: t, k, v =>
    if k0 == k then (k0, v) :: t else (k0, v0) :: setKey t k v

/-- Python `base.update(extra)` on insertion-ordered dicts. -/
def pyDictUpdate (base : List (String × JVal)) : List (String × JVal) → List (String × JVal)
  | [] => base
  | (k, v) :: rest => pyDictUpdate (setKey base k v) rest

/-- `scenarios._ok_payload`: serialize `{"ok": true}` updated with the
extra fields. -/
def okPayload (extra : List (String × JVal)) : String :=
  jsonDumps (JVal.obj (pyDictUpdate [("ok", JVal.bool true)] extra))

/-- `scenarios._err_payload`: serialize
`{"ok": false, "error": {"type": t, "message": m}}`. -/
def errPayload (errorType message : String) : String :=
  jsonDumps (JVal.obj
    [("ok", JVal.bool false),
     ("error", JVal.obj [("type", JVal.str errorType), ("message", JVal.str message)])])

/-- Python `float()` applied to a decoded string: strip whitespace, then
accept the case-insensitive constants `nan`, `inf` and `infinity`
(optionally signed; a signed NaN is still NaN) or
`[+-]?(digits[.digits*]? | .digits+)([eE][+-]?digits)?`, exactly.
The `_` digit separators CPython also accepts are not modelled. -/
def pyFloatStr (s : String) : Option PyNum :=
  let isSp : Char → Bool := fun c =>
    c.toNat = 32 ∨ c.toNat = 9 ∨ c.toNat = 10 ∨ c.toNat = 13 ∨ c.toNat = 11 ∨ c.toNat = 12
  let lower : Char → Char := fun c =>
    if 65 ≤ c.toNat ∧ c.toNat ≤ 90 then Char.ofNat (c.toNat + 32) else c
  let cs := ((s.toList.dropWhile isSp).reverse.dropWhile isSp).reverse
  let p0 : Int × List Char :=
    match cs with
    | c :: r => if c = '-' then (-1, r) else if c = '+' then (1, r) else (1, cs)
    | [] => (1, [])
  let sgn := p0.1
  if p0.2.map lower = ['n', 'a', 'n'] then some .nan
  else if p0.2.map lower = ['i', 'n', 'f'] ∨
      p0.2.map lower = ['i', 'n', 'f', 'i', 'n', 'i', 't', 'y'] then
    some (if sgn = -1 then .ninf else .pinf)
  else
  let pI := takeDigits p0.2
  let pF : List Char × List Char :=
    match pI.2 with
    | c :: r => if c = '.' then takeDigits r else ([], pI.2)
    | [] => ([], [])
  if pI.1.isEmpty ∧ pF.1.isEmpty then none
  else
    let expRes : Option (Int × List Char) :=
      match pF.2 with
      | e :: r =>
        if e = 'e' ∨ e = 'E' then
          let ps : Int × List Char :=
            match r with
            | s2 :: r2 =>
              if s2 = '+' then (1, r2)
              else if s2 = '-' then (-1, r2)
              else (1, r)
            | [] => (1, r)
          match ps.2 with
          | c2 :: _ =>
            if c2.isDigit then
              let pe := takeDigits ps.2
              some (ps.1 * (digitsToNat pe.1 : Int), pe.2)
            else none
          | [] => none
        else some (0, pF.2)
      | [] => some (0, [])
    match expRes with
    | none => none
    | some (ex, rest) =>
      if rest.isEmpty then
        let mant : Int := (digitsToNat (pI.1 ++ pF.1) : Int)
        some (.fin (qOfShift (sgn * mant) (ex - (pF.1.length : Int))))
      else none

/-- Python `float()` applied to a JSON-decoded value: numbers pass
through, `bool` is an `int` subclass, numeric strings convert, everything
else raises (`none`). -/
def pyFloat : JVal → Option PyNum
  | .num x => some x
  | .bool b => some (if b then 1 else 0)
  | .str s => pyFloatStr s
  | _ => none

/-- Python `t.encode("ascii", "ignore").decode("ascii")`: drop every
non-ASCII character. -/
def asciiFilter (s : String) : String :=
  String.mk (s.toList.filter (fun c => c.toNat ≤ 127))

/-- Base64 alphabet. -/
def b64Char (n : Nat) : Char :=
  if n < 26 then Char.ofNat (65 + n)
  else if n < 52 then Char.ofNat (97 + (n - 26))
  else if n < 62 then Char.ofNat (48 + (n - 52))
  else if n = 62 then '+'
  else '/'

/-- `base64.b64encode` over a byte list. -/
def base64Encode : List Nat → String
  | [] => ""
  | [b1] =>
    String.mk [b64Char (b1 / 4 % 64), b64Char (b1 % 4 * 16)] ++ "=="
  | [b1, b2] =>
    String.mk [b64Char (b1 / 4 % 64), b64Char (b1 % 4 * 16 + b2 / 16),
               b64Char (b2 % 16 * 4)] ++ "="
  | b1 :: b2 :: b3 :: rest =>
    String.mk [b64Char (b1 / 4 % 64), b64Char (b1 % 4 * 16 + b2 / 16),
               b64Char (b2 % 16 * 4 + b3 / 64), b64Char (b3 % 64)] ++
      base64Encode rest

/-- Python `f"{n:04d}"`: sign, then zero-padding to overall width 4. -/
def zeroPad4 (n : Int) : String :=
  let mag := toString n.natAbs
  let sign := if n < 0 then "-" else ""
  sign ++ String.mk (List.replicate (4 - (sign.length + mag.length)) '0') ++ mag

/-- `os.path.join` for the one shape the program uses (directory plus
file name) under Windows path conventions. -/
def osPathJoin (d n : String) : String :=
  if d = "" then n
  else if d.toList.getLast? = some backslashC ∨ d.toList.getLast? = some '/' then d ++ n
  else d ++ String.mk [backslashC] ++ n

/-- Message content: Python `None`/absent, a plain string, or a list of
content parts (each part a JSON-like dict, as sent over the wire). -/
inductive Content where
  | null : Content
  | str (s : String) : Content
  | parts (ps : List JVal) : Content

/-- The `function` member of a tool call:
`{name, arguments: optional JSON-encoded string}`. -/
structure ToolFn where
  name : String
  arguments : Option String

/-- One tool call of an assistant message: `{id, function}`. -/
structure ToolCall where
  id : String
  function : ToolFn

/-- A conversation message. `toolCallId` and `name` are populated only on
tool-role messages, `toolCalls` only on assistant messages (empty
elsewhere), mirroring the wire format. -/
structure Msg where
  role : String
  content : Content
  toolCallId : Option String := none
  name : Option String := none
  toolCalls : List ToolCall := []

/-- The dump configuration dict threaded through `execute_tool`
(`dump_dir`, `dump_prefix`, `dump_idx`, `target_w`, `target_h`). -/
structure DumpCfg where
  dumpDir : String
  dumpPfx : String
  dumpIdx : Int
  targetW : Int
  targetH : Int

/-- What `winapi.capture_screenshot_png` returns: encoded image bytes and
the source screen dimensions. Supplied as an oracle argument. -/
structure CaptureResult where
  png : List Nat
  screenW : Int
  screenH : Int

/-- One observable call into the `winapi` collaborator (or the file
system), recorded as a trace instead of performed. -/
inductive Effect where
  | capture (targetW targetH : Int)
  | writeFile (path : String) (bytes : List Nat)
  | moveMouse (x y : PyNum)
  | click
  | typeText (s : String)
  | scrollDown

/-- `scenarios._parse_args`: `None` becomes `"{}"`, the empty string
becomes `{}`, a decode failure or a non-object decode yields an
`invalid_arguments` error payload.  (The Python branch rejecting
non-string `arg_str` values is unreachable under this typed model, and
the embedded decoder message stands in for CPython's `e.msg` text.) -/
def parseArgs (argStr : Option String) : Except String (List (String × JVal)) :=
  let s := match argStr with
    | none => "\x7b\x7d"
    | some s => s
  match (if s = "" then some (JVal.obj []) else jsonLoads s) with
  | none => .error (errPayload "invalid_arguments" "JSON decode error: Expecting value")
  | some (.obj kvs) => .ok kvs
  | some _ => .error (errPayload "invalid_arguments" "arguments must decode to an object")

/-- Dict lookup used for `args["x"]` / `"x" in args` (last occurrence
wins, as in a Python dict built by `json.loads`). -/
def kvGet (kvs : List (String × JVal)) (k : String) : Option JVal :=
  (kvs.reverse.find? (fun p => p.1 == k)).map (·.2)

/-- The coordinate clamp of `scenarios._parse_xy` under IEEE comparison
semantics: `x < 0.0` sends the value to 0 and `x > 1000.0` to 1000;
both tests are false for NaN, which therefore passes through unclamped
(while `-inf` becomes 0 and `+inf` becomes 1000). -/
def clampCoord (x : PyNum) : PyNum :=
  if pyLt x (.fin 0) then .fin 0 else if pyLt (.fin 1000) x then .fin 1000 else x

/-- `scenarios._parse_xy`: parse arguments, require `x` and `y` keys,
convert with `float()`, clamp both into `[0, 1000]`. -/
def parseXY (argStr : Option String) : Except String (PyNum × PyNum) :=
  match parseArgs argStr with
  | .error e => .error e
  | .ok args =>
    match kvGet args "x", kvGet args "y" with
    | some vx, some vy =>
      match pyFloat vx, pyFloat vy with
      | some x, some y => .ok (clampCoord x, clampCoord y)
      | _, _ => .error (errPayload "invalid_arguments" "x and y must be numbers")
    | _, _ => .error (errPayload "invalid_arguments" "missing x or y")

/-- `scenarios._parse_text`: a missing `text` key yields the empty
string, `None` becomes `""`, anything else is `str()`-converted, then
non-ASCII characters are stripped. -/
def parseText (argStr : Option String) : Except String String :=
  match parseArgs argStr with
  | .error e => .error e
  | .ok args =>
    match kvGet args "text" with
    | none => .ok ""
    | some .null => .ok (asciiFilter "")
    | some v => .ok (asciiFilter (pyStrOf v))

/-- The tool-role result message every `execute_tool` branch builds:
`{"role": "tool", "tool_call_id": call_id, "name": tool_name,
"content": payload}`. -/
def mkToolMsg (callId toolName payload : String) : Msg :=
  { role := "tool", content := .str payload,
    toolCallId := some callId, name := some toolName, toolCalls := [] }

/-- Result of one dispatch: the tool message, the optional observation
(user) message, the possibly-updated dump configuration, and the trace of
collaborator calls. -/
structure ExecResult where
  toolMsg : Msg
  userMsg : Option Msg
  cfg : DumpCfg
  effects : List Effect

/-- `scenarios.execute_tool`: validate and route one tool call. -/
def executeTool (toolName : String) (argStr : Option String) (callId : String)
    (cfg : DumpCfg) (cap : CaptureResult) : ExecResult :=
  if toolName = "take_screenshot" then
    let fn := osPathJoin cfg.dumpDir (cfg.dumpPfx ++ zeroPad4 cfg.dumpIdx ++ ".png")
    let b64 := base64Encode cap.png
    { toolMsg := mkToolMsg callId toolName
        (okPayload [("file", JVal.str fn), ("screen_w", JVal.num (PyNum.ofInt cap.screenW)),
                    ("screen_h", JVal.num (PyNum.ofInt cap.screenH))]),
      userMsg := some
        { role := "user",
          content := .parts
            [JVal.obj [("type", JVal.str "text"), ("text", JVal.str "captured image data")],
             JVal.obj [("type", JVal.str "image_url"),
                       ("image_url", JVal.obj [("url", JVal.str ("data:image/png;base64," ++ b64))])]] },
      cfg := { cfg with dumpIdx := cfg.dumpIdx + 1 },
      effects := [.capture cfg.targetW cfg.targetH, .writeFile fn cap.png] }
  else if toolName = "move_mouse" then
    match parseXY argStr with
    | .error e => { toolMsg := mkToolMsg callId toolName e, userMsg := none, cfg := cfg, effects := [] }
    | .ok (x, y) =>
      { toolMsg := mkToolMsg callId toolName (okPayload []), userMsg := none, cfg := cfg,
        effects := [.moveMouse x y] }
  else if toolName = "click_mouse" then
    match parseArgs argStr with
    | .error e => { toolMsg := mkToolMsg callId toolName e, userMsg := none, cfg := cfg, effects := [] }
    | .ok _ =>
      { toolMsg := mkToolMsg callId toolName (okPayload []), userMsg := none, cfg := cfg,
        effects := [.click] }
  else if toolName = "type_text" then
    match parseText argStr with
    | .error e => { toolMsg := mkToolMsg callId toolName e, userMsg := none, cfg := cfg, effects := [] }
    | .ok t =>
      { toolMsg := mkToolMsg callId toolName (okPayload []), userMsg := none, cfg := cfg,
        effects := [.typeText t] }
  else if toolName = "scroll_down" then
    match parseArgs argStr with
    | .error e => { toolMsg := mkToolMsg callId toolName e, userMsg := none, cfg := cfg, effects := [] }
    | .ok _ =>
      { toolMsg := mkToolMsg callId toolName (okPayload []), userMsg := none, cfg := cfg,
        effects := [.scrollDown] }
  else
    { toolMsg := mkToolMsg callId toolName (errPayload "unknown_tool" toolName),
      userMsg := none, cfg := cfg, effects := [] }

/-- Is a content part an image-reference part
(`isinstance(p, dict) and p.get("type") == "image_url"`)? -/
def isImagePart (p : JVal) : Bool :=
  match p with
  | .obj _ =>
    match jget p "type" with
    | some (.str t) => t == "image_url"
    | _ => false
  | _ => false

/-- Does pruning apply to this message: role `user` and a part-list
content containing at least one image-reference part? -/
def qualifies (m : Msg) : Bool :=
  m.role == "user" &&
    (match m.content with
     | .parts ps => ps.any isImagePart
     | _ => false)

/-- The positions `_prune_old_screenshots` collects: indices of
qualifying messages, in history order. -/
def imageIdxs (messages : List Msg) : List Nat :=
  (List.range messages.length).filter fun i =>
    match messages.get? i with
    | some m => qualifies m
    | none => false

/-- Python's `l[:-k]` slice: empty for `k = 0`, otherwise all but the
last `k` elements. -/
def pySliceToNeg (l : List α) (k : Nat) : List α :=
  if k = 0 then [] else l.take (l.length - k)

/-- The file hint recovered for position `i`: non-empty exactly when the
preceding message is a tool-role message whose string content parses as
JSON with truthy `ok` and `file` fields. A non-string content would make
`json.loads` raise, which the source swallows into an empty hint. -/
def fileHintAt (messages : List Msg) (i : Nat) : String :=
  if i = 0 then ""
  else
    match messages.get? (i - 1) with
    | none => ""
    | some prev =>
      if prev.role == "tool" then
        match prev.content with
        | .str s =>
          match jsonLoads s with
          | some meta =>
            if pyTruthyOpt (jget meta "ok") && pyTruthyOpt (jget meta "file") then
              " (omitted; file=" ++ pyStrOf ((jget meta "file").getD .null) ++ ")"
            else ""
          | none => ""
        | .null => ""
        | .parts _ => ""
      else ""

/-- One in-place replacement step of the pruning loop: overwrite the
content at position `i` with the placeholder plus optional file hint. -/
def replaceAt (messages : List Msg) (i : Nat) : List Msg :=
  match messages.get? i with
  | some m =>
    messages.set i { m with content := .str ("captured image data" ++ fileHintAt messages i) }
  | none => messages

/-- `agent._prune_old_screenshots`: if at most `keep_last` qualifying
messages exist do nothing; otherwise replace the content of every
qualifying message except the last `keep_last` (Python's `idxs[:-keep_last]`). -/
def pruneOldScreenshots (messages : List Msg) (keepLast : Nat) : List Msg :=
  if (imageIdxs messages).length ≤ keepLast then messages
  else (pySliceToNeg (imageIdxs messages) keepLast).foldl replaceAt messages

/-- The candidate-answer update of the controller: any string content
(including the empty string) replaces the remembered value; non-string
content leaves it unchanged. -/
def candidateUpdate (m : Msg) (last : String) : String :=
  match m.content with
  | .str s => s
  | _ => last

/-- The synthesized rejection for one excess tool call. -/
def tooManyMsg (tc : ToolCall) : Msg :=
  { role := "tool",
    content := .str (errPayload "too_many_tool_calls" "only one tool call per response allowed"),
    toolCallId := some tc.id, name := some tc.function.name, toolCalls := [] }

/-- The dispatch phase of one controller turn, applied to the history
already extended with the assistant message `r`: append one rejection per
excess tool call, execute the retained call `tc`, append its result, and
if an observation message was produced append it and prune. Returns the
new history, the updated dump configuration, and the collaborator trace
of the turn. -/
def dispatchTurn (messages : List Msg) (r : Msg) (tc : ToolCall) (dcfg : DumpCfg)
    (cap : CaptureResult) (keepLast : Nat) : List Msg × DumpCfg × List Effect :=
  let messages1 := messages ++ (r.toolCalls.drop 1).map tooManyMsg
  let er := executeTool tc.function.name tc.function.arguments tc.id dcfg cap
  let messages2 := messages1 ++ [er.toolMsg]
  match er.userMsg with
  | some um => (pruneOldScreenshots (messages2 ++ [um]) keepLast, er.cfg, er.effects)
  | none => (messages2, er.cfg, er.effects)

/-- The turn loop of `agent.run_agent`. The model service is an oracle
script: the k-th response consumed from `responses` (an exhausted script
models a fatal transport error, returning `none`), and `cap` supplies
what the capture collaborator would return on each turn. -/
def runAgentLoop (cap : Nat → CaptureResult) (keepLast : Nat) :
    Nat → List Msg → List Msg → String → DumpCfg → Nat → Option String
  | 0, _, _, lastContent, _, _ => some lastContent
  | steps + 1, responses, messages, lastContent, dcfg, turnIdx =>
    match responses with
    | [] => none
    | r :: rest =>
      let messages1 := messages ++ [r]
      let last1 := candidateUpdate r lastContent
      match r.toolCalls with
      | [] => some last1
      | tc :: _ =>
        let step := dispatchTurn messages1 r tc dcfg (cap turnIdx) keepLast
        runAgentLoop cap keepLast steps rest step.1 last1 step.2.1 (turnIdx + 1)

/-- `agent.run_agent`: seed the history with the system and task
messages and run up to `maxSteps` turns. -/
def runAgent (systemPrompt taskPrompt : String) (maxSteps keepLast : Nat)
    (dcfg : DumpCfg) (cap : Nat → CaptureResult) (responses : List Msg) : Option String :=
  runAgentLoop cap keepLast maxSteps responses
    [{ role := "system", content := .str systemPrompt },
     { role := "user", content := .str taskPrompt }] "" dcfg 0

/-- The character-level state of `_extract_json_from_position`:
brace depth, in-string flag, one-shot escape flag. -/
structure ScanState where
  braceCount : Int
  inString : Bool
  escapeNext : Bool
deriving DecidableEq

/-- The initial scanner state. -/
def scanInit : ScanState := { braceCount := 0, inString := false, escapeNext := false }

/-- One character step of the scanner: an armed escape flag suppresses
the character entirely; a backslash arms it; an unescaped double quote
toggles the in-string flag; braces are counted only outside strings. -/
def scanChar (st : ScanState) (c : Char) : ScanState :=
  if st.escapeNext then { st with escapeNext := false }
  else if c = backslashC then { st with escapeNext := true }
  else
    let st1 := if c = quoteC then { st with inString := ¬ st.inString } else st
    if ¬ st1.inString then
      if c = lbraceC then { st1 with braceCount := st1.braceCount + 1 }
      else if c = rbraceC then { st1 with braceCount := st1.braceCount - 1 }
      else st1
    else st1

/-- Scan one line left to right (the newline itself is not scanned, as in
the source, so the escape flag carries across line boundaries). -/
def scanLine (st : ScanState) (line : String) : ScanState :=
  line.toList.foldl scanChar st

/-- The line-accumulation loop of `_extract_json_from_position`, relative
to the starting position: returns the consumed lines and the relative
next index. A line leaving the depth at zero stops consumption with
`next = consumed`; running off the end returns `next = consumed + 1`,
reproducing the source's `i + 1` where `i` has already advanced past the
last line. -/
def extractScan (st : ScanState) : List String → List String × Nat
  | [] => ([], 1)
  | line :: rest =>
    let st1 := scanLine st line
    if st1.braceCount = 0 then ([line], 1)
    else
      let p := extractScan st1 rest
      (line :: p.1, p.2 + 1)

/-- `main._extract_json_from_position`: accumulate lines from
`start_idx` while tracking strings and brace depth, then parse the
accumulated text as one JSON document; a parse failure yields an absent
record but the same advanced cursor. -/
def extractJson (lines : List String) (startIdx : Nat) : Option JVal × Nat :=
  (jsonLoads (String.intercalate "\n" (extractScan scanInit (lines.drop startIdx)).1),
   startIdx + (extractScan scanInit (lines.drop startIdx)).2)

/-- Does `l` start with `pat`? -/
def startsWithL : List Char → List Char → Bool
  | _, [] => true
  | [], _ :: _ => false
  | a :: as, b :: bs => a = b && startsWithL as bs

/-- Substring containment (Python's `pat in line`). -/
def containsSubAux : List Char → List Char → Bool
  | [], pat => pat.isEmpty
  | c :: rest, pat => startsWithL (c :: rest) pat || containsSubAux rest pat

/-- Substring containment (Python's `pat in line`). -/
def containsSub (line pat : String) : Bool :=
  containsSubAux line.toList pat.toList

/-- Does this log line carry either record marker? -/
def isMarkerLine (line : String) : Bool :=
  containsSub line "Received request: POST to /v1/chat/completions with body" ||
    containsSub line "Generated prediction:"

/-- Index of the first opening brace (Python `line.find("{")`, with
`none` for -1). -/
def findBraceIdx : List Char → Option Nat
  | [] => none
  | c :: rest => if c = lbraceC then some 0 else (findBraceIdx rest).map (· + 1)

/-- Number of days since the era base 0000-03-01 of a Gregorian civil
date with year ≥ 1 (the standard days-from-civil computation, in `Nat`). -/
def daysFromCivil (y m d : Nat) : Nat :=
  let yAdj := if m ≤ 2 then y - 1 else y
  let era := yAdj / 400
  let yoe := yAdj % 400
  let mp := (m + 9) % 12
  let doy := (153 * mp + 2) / 5 + (d - 1)
  let doe := yoe * 365 + yoe / 4 - yoe / 100 + doy
  era * 146097 + doe

/-- Number of days in a month of the Gregorian calendar. -/
def daysInMonth (y m : Nat) : Nat :=
  if m = 2 then
    if (y % 4 = 0 ∧ y % 100 ≠ 0) ∨ y % 400 = 0 then 29 else 28
  else if m = 4 ∨ m = 6 ∨ m = 9 ∨ m = 11 then 30
  else 31

/-- Two decimal digits. -/
def digit2 (a b : Char) : Option Nat :=
  if a.isDigit ∧ b.isDigit then some ((a.toNat - 48) * 10 + (b.toNat - 48)) else none

/-- Four decimal digits. -/
def digit4 (a b c d : Char) : Option Nat :=
  if a.isDigit ∧ b.isDigit ∧ c.isDigit ∧ d.isDigit then
    some ((a.toNat - 48) * 1000 + (b.toNat - 48) * 100 + (c.toNat - 48) * 10 + (d.toNat - 48))
  else none

/-- Timestamps are modelled as integer microseconds on the timeline used
by `datetime` comparisons; log timestamps have zero microseconds while
the session bounds (`datetime.now()`) may not. -/
def tsToMicros (y m d h mi s : Nat) : Int :=
  ((daysFromCivil y m d * 86400 + h * 3600 + mi * 60 + s : Nat) : Int) * 1000000

/-- `main._parse_log_ts`: match the leading
`[YYYY-MM-DD HH:MM:SS]` pattern and validate it as `strptime` does
(month 1-12, day valid for the month, year ≥ 1, H ≤ 23, M,S ≤ 59);
`none` on any failure. -/
def parseLogTs (line : String) : Option Int :=
  match line.toList with
  | '[' :: y1 :: y2 :: y3 :: y4 :: '-' :: m1 :: m2 :: '-' :: d1 :: d2 :: ' ' ::
      h1 :: h2 :: ':' :: mi1 :: mi2 :: ':' :: s1 :: s2 :: ']' :: _ =>
    match digit4 y1 y2 y3 y4, digit2 m1 m2, digit2 d1 d2,
          digit2 h1 h2, digit2 mi1 mi2, digit2 s1 s2 with
    | some y, some mo, some d, some h, some mi, some s =>
      if 1 ≤ y ∧ 1 ≤ mo ∧ mo ≤ 12 ∧ 1 ≤ d ∧ d ≤ daysInMonth y mo ∧
          h ≤ 23 ∧ mi ≤ 59 ∧ s ≤ 59 then
        some (tsToMicros y mo d h mi s)
      else none
    | _, _, _, _, _, _ => none
  | _ => none

/-- The retention test of the export loop:
`ts is not None and t0 <= ts <= t1` (both bounds inclusive). -/
def retainTs (t0 t1 : Int) : Option Int → Bool
  | none => false
  | some ts => decide (t0 ≤ ts) && decide (ts ≤ t1)

/-- The Scanner-delimited span of the record starting at marker line `i`:
`_extract_json_from_position` is run on `[line[brace_pos:]] + lines[i+1:]`
and its next-index is the line count consumed; without a brace the span
is a single line, and a sub-1 offset is forced up to 1 as in the source
(a dead guard, since the scanner always advances). -/
def recordSpan (lines : List String) (i : Nat) : Nat :=
  match lines.get? i with
  | none => 1
  | some line =>
    match findBraceIdx line.toList with
    | none => 1
    | some bp =>
      let tmp := String.mk (line.toList.drop bp) :: lines.drop (i + 1)
      let off := (extractJson tmp 0).2
      if off < 1 then 1 else off

/-- The line-selection loop of `main._export_and_clean_current_run`,
from position `i` with explicit fuel (the loop advances by at least one
line per iteration, so fuel `lines.length` never runs out). Non-marker
lines are skipped; a marker line's whole span is retained exactly when
its timestamp parses and falls inside the window. -/
def exportPickAux (lines : List String) (t0 t1 : Int) : Nat → Nat → List String
  | _, 0 => []
  | i, fuel + 1 =>
    match lines.get? i with
    | none => []
    | some line =>
      if isMarkerLine line then
        let off := recordSpan lines i
        (if retainTs t0 t1 (parseLogTs line) then (lines.drop i).take off else []) ++
          exportPickAux lines t0 t1 (i + off) fuel
      else exportPickAux lines t0 t1 (i + 1) fuel

/-- The retained lines of the raw export for a run delimited by
`start`/`end` (microsecond timestamps): window `[start − 2s, end + 2s]`. -/
def exportPick (lines : List String) (startDt endDt : Int) : List String :=
  exportPickAux lines (startDt - 2000000) (endDt + 2000000) 0 lines.length

/-! ### Helper lemmas -/

/-- Indexing past a prefix of an append. -/
lemma get_append_mid {α : Type} (a b : List α) (n : Nat) :
    (a ++ b).get? (a.length + n) = b.get? n := by
  induction a with
  | nil => simp
  | cons x xs ih =>
    simpa [Nat.succ_add] using ih

/-- The scanner's relative next index is at least 1 and covers all
consumed lines. -/
lemma extractScan_bounds (st : ScanState) (ls : List String) :
    1 ≤ (extractScan st ls).2 ∧ (extractScan st ls).1.length ≤ (extractScan st ls).2 := by
  induction ls generalizing st with
  | nil => simp [extractScan]
  | cons l rest ih =>
    by_cases h : (scanLine st l).braceCount = 0
    · simp [extractScan, h]
    · have := ih (scanLine st l)
      simp only [extractScan, if_neg h, List.length_cons]
      omega

/-- `replaceAt` preserves length. -/
lemma replaceAt_length (ms : List Msg) (i : Nat) :
    (replaceAt ms i).length = ms.length := by
  unfold replaceAt
  cases h : ms.get? i <;> simp

/-- `replaceAt` leaves every other position untouched. -/
lemma replaceAt_get_ne (ms : List Msg) (i j : Nat) (h : j ≠ i) :
    (replaceAt ms i).get? j = ms.get? j := by
  unfold replaceAt
  cases hm : ms.get? i with
  | none => rfl
  | some m => exact List.get?_set_ne _ _ (fun he => h he.symm)

/-- A fold of `replaceAt` preserves length. -/
lemma foldl_replaceAt_length (is : List Nat) (ms : List Msg) :
    (is.foldl replaceAt ms).length = ms.length := by
  induction is generalizing ms with
  | nil => rfl
  | cons i is ih => simp [List.foldl_cons, ih, replaceAt_length]

/-- A fold of `replaceAt` leaves positions outside the index list
untouched. -/
lemma foldl_replaceAt_get_notMem (is : List Nat) (ms : List Msg) (j : Nat)
    (h : j ∉ is) :
    (is.foldl replaceAt ms).get? j = ms.get? j := by
  induction is generalizing ms with
  | nil => rfl
  | cons i is ih =>
    simp only [List.foldl_cons]
    rw [ih _ (fun hj => h (List.mem_cons_of_mem _ hj)),
      replaceAt_get_ne _ _ _ (by intro he; subst he; exact h (List.mem_cons_self j is))]

/-- At a position in the (duplicate-free) index list, a fold of
`replaceAt` yields the original message with its content replaced by the
placeholder plus some hint. -/
lemma foldl_replaceAt_get_mem (is : List Nat) (ms : List Msg) (j : Nat) (m : Msg)
    (hnd : is.Nodup) (hj : j ∈ is) (hm : ms.get? j = some m) :
    ∃ hint, (is.foldl replaceAt ms).get? j =
      some { m with content := Content.str ("captured image data" ++ hint) } := by
  induction is generalizing ms m with
  | nil => cases hj
  | cons i is ih =>
    rcases List.nodup_cons.mp hnd with ⟨hni, hnd'⟩
    simp only [List.foldl_cons]
    rcases List.mem_cons.mp hj with rfl | hj'
    · refine ⟨fileHintAt ms j, ?_⟩
      rw [foldl_replaceAt_get_notMem _ _ _ hni]
      unfold replaceAt
      rw [hm]
      exact List.get?_set_eq_of_lt _ (List.get?_eq_some.mp hm).1
    · refine ih _ _ hnd' hj' ?_
      rw [replaceAt_get_ne _ _ _ (by intro he; subst he; exact hni hj'), hm]

/-- Membership in `imageIdxs` means the position holds a qualifying
message. -/
lemma mem_imageIdxs {ms : List Msg} {i : Nat} (h : i ∈ imageIdxs ms) :
    ∃ m, ms.get? i = some m ∧ qualifies m = true := by
  rcases List.mem_filter.mp h with ⟨_, hq⟩
  cases hm : ms.get? i with
  | none => rw [hm] at hq; cases hq
  | some m => rw [hm] at hq; exact ⟨m, rfl, hq⟩

/-- `imageIdxs` is duplicate-free. -/
lemma imageIdxs_nodup (ms : List Msg) : (imageIdxs ms).Nodup :=
  List.Nodup.sublist (List.filter_sublist _) (List.nodup_range _)

/-- `imageIdxs` is strictly increasing. -/
lemma imageIdxs_pairwise (ms : List Msg) : (imageIdxs ms).Pairwise (· < ·) :=
  List.Pairwise.sublist (List.filter_sublist _) (List.pairwise_lt_range _)

/-- Python's `l[:-k]` is a sublist of `l`. -/
lemma pySliceToNeg_sublist (l : List α) (k : Nat) : (pySliceToNeg l k).Sublist l := by
  unfold pySliceToNeg
  split
  · exact List.nil_sublist l
  · exact List.take_sublist _ l

/-- Pruning preserves non-qualifying positions. -/
lemma prune_get_of_not_qualifies (ms : List Msg) (K j : Nat) (m : Msg)
    (hm : ms.get? j = some m) (hq : qualifies m = false) :
    (pruneOldScreenshots ms K).get? j = some m := by
  unfold pruneOldScreenshots
  split
  · exact hm
  · rw [foldl_replaceAt_get_notMem _ _ _ ?_]
    · exact hm
    intro hmem
    have hidx := (pySliceToNeg_sublist (imageIdxs ms) K).subset hmem
    rcases mem_imageIdxs hidx with ⟨m', hm', hq'⟩
    rw [hm] at hm'
    cases hm'
    rw [hq'] at hq
    cases hq

/-- Pruning preserves history length. -/
lemma prune_length (ms : List Msg) (K : Nat) :
    (pruneOldScreenshots ms K).length = ms.length := by
  unfold pruneOldScreenshots
  split
  · rfl
  · exact foldl_replaceAt_length _ _

/-! ### Claims -/

/-- C3: the scanner's escape/quote/brace tracking does not mistake an
escaped quote for a string terminator: the one-line payload
`{"a":"x\"y"}` and its two-line split both extract as one complete
parsed object with the cursor just past the balancing brace; stepping
over a backslash-escaped character leaves the state exactly unchanged,
and braces seen while inside a string never change the depth. -/
theorem spec_C3_escaped_quote_tracking :
    (extractJson ["\x7b\"a\":\"x\\\"y\"\x7d"] 0 =
      (some (JVal.obj [("a", JVal.str ("x" ++ String.mk [quoteC] ++ "y"))]), 1)) ∧
    (extractJson ["\x7b\"a\":\"x\\\"y\",", "\"b\":1\x7d"] 0 =
      (some (JVal.obj [("a", JVal.str ("x" ++ String.mk [quoteC] ++ "y")), ("b", JVal.num 1)]), 2)) ∧
    (∀ (st : ScanState) (c : Char), st.escapeNext = false →
      scanChar (scanChar st backslashC) c = st) ∧
    (∀ st : ScanState, st.inString = true → st.escapeNext = false →
      (scanChar st lbraceC).braceCount = st.braceCount ∧
      (scanChar st rbraceC).braceCount = st.braceCount) := by
  refine ⟨by rfl, by rfl, ?_, ?_⟩
  · intro st c h
    cases st
    simp only [scanChar] at *
    simp [h, backslashC]
  · intro st h1 h2
    constructor <;>
      simp [scanChar, h1, h2, lbraceC, rbraceC, backslashC, quoteC, Char.ofNat]

/-- C3 witness: the escape step applied at a concrete in-string state and
an escaped quote character. -/
theorem spec_C3_witness :
    scanChar (scanChar { braceCount := 1, inString := true, escapeNext := false } backslashC)
      quoteC = { braceCount := 1, inString := true, escapeNext := false } :=
  spec_C3_escaped_quote_tracking.2.2.1 _ quoteC rfl

/-- C7: when the accumulated text fails to parse, the scanner still
reports an absent record together with a cursor strictly past the
starting index and past every consumed line, so repeated extraction
always makes forward progress. -/
theorem spec_C7_forward_progress :
    ∀ (lines : List String) (startIdx : Nat),
      (extractJson lines startIdx).1 = none →
      startIdx < (extractJson lines startIdx).2 ∧
      startIdx + (extractScan scanInit (lines.drop startIdx)).1.length ≤
        (extractJson lines startIdx).2 := by
  intro lines startIdx _
  have h := extractScan_bounds scanInit (lines.drop startIdx)
  unfold extractJson
  constructor
  · omega
  · omega

/-- C7 witness: a malformed record (`{ bad` never closes) yields an
absent object and a cursor past the whole input. -/
theorem spec_C7_witness :
    0 < (extractJson ["\x7b bad"] 0).2 ∧
    0 + (extractScan scanInit (["\x7b bad"].drop 0)).1.length ≤ (extractJson ["\x7b bad"] 0).2 :=
  spec_C7_forward_progress ["\x7b bad"] 0 rfl

/-- A concrete dump configuration used by witnesses. -/
def cfgEx : DumpCfg :=
  { dumpDir := "dumps", dumpPfx := "screen_", dumpIdx := 1, targetW := 100, targetH := 100 }

/-- A concrete capture-oracle result used by witnesses. -/
def capEx : CaptureResult := { png := [137, 80, 78, 71], screenW := 1920, screenH := 1080 }

/-- C4: a marker line's record span is retained exactly when its leading
timestamp parses and lies in the inclusive window
`[start − 2s, end + 2s]`: the retention test is `false` on an
unparseable timestamp whatever the window, it is the conjunction of the
two inclusive bounds, a record at exactly `start − 2s` is retained, one
at `start − 2.001s` is not, and one step of the selection loop at a
marker line retains exactly the Scanner-delimited span
(`recordSpan`, independent of whether the JSON parsed) under that test
before advancing past it. -/
theorem spec_C4_export_window :
    (∀ t0 t1 : Int, retainTs t0 t1 none = false) ∧
    (∀ t0 t1 ts : Int, retainTs t0 t1 (some ts) = true ↔ (t0 ≤ ts ∧ ts ≤ t1)) ∧
    (∀ s e : Int, s ≤ e → retainTs (s - 2000000) (e + 2000000) (some (s - 2000000)) = true) ∧
    (∀ s e : Int, retainTs (s - 2000000) (e + 2000000) (some (s - 2001000)) = false) ∧
    (∀ (lines : List String) (t0 t1 : Int) (i fuel : Nat) (line : String),
      lines.get? i = some line → isMarkerLine line = true →
      exportPickAux lines t0 t1 i (fuel + 1) =
        (if retainTs t0 t1 (parseLogTs line) then (lines.drop i).take (recordSpan lines i)
         else []) ++ exportPickAux lines t0 t1 (i + recordSpan lines i) fuel) ∧
    (∀ (lines : List String) (s e : Int),
      exportPick lines s e = exportPickAux lines (s - 2000000) (e + 2000000) 0 lines.length) := by
  refine ⟨fun _ _ => rfl, ?_, ?_, ?_, ?_, fun _ _ _ => rfl⟩
  · intro t0 t1 ts
    simp [retainTs]
  · intro s e h
    simp only [retainTs, Bool.and_eq_true, decide_eq_true_eq]
    omega
  · intro s e
    simp only [retainTs, Bool.and_eq_false_iff, decide_eq_false_iff_not]
    left
    omega
  · intro lines t0 t1 i fuel line hget hmark
    conv_lhs => rw [exportPickAux]
    rw [hget]
    simp [hmark]

/-- A concrete marker line whose record spans two lines, for the C4
witness. -/
def c4Line : String := "[2026-01-05 10:00:00] Generated prediction: \x7b\"a\":"

/-- The two-line log used by the C4 witness. -/
def c4Lines : List String := [c4Line, "1\x7d"]

/-- C4 witness: the loop step at the concrete marker line, plus both
boundary cases at a concrete window. -/
theorem spec_C4_export_window_witness :
    (exportPickAux c4Lines 0 63929642500000000 0 2 =
      (if retainTs 0 63929642500000000 (parseLogTs c4Line) then (c4Lines.drop 0).take (recordSpan c4Lines 0)
       else []) ++ exportPickAux c4Lines 0 63929642500000000 (0 + recordSpan c4Lines 0) 1) ∧
    retainTs (63929642402000000 - 2000000) (63929642500000000 + 2000000)
      (some (63929642402000000 - 2000000)) = true ∧
    retainTs (63929642402000000 - 2000000) (63929642500000000 + 2000000)
      (some (63929642402000000 - 2001000)) = false :=
  ⟨spec_C4_export_window.2.2.2.2.1 c4Lines 0 63929642500000000 0 1 c4Line rfl rfl,
   spec_C4_export_window.2.2.1 63929642402000000 63929642500000000 (by omega),
   spec_C4_export_window.2.2.2.1 63929642402000000 63929642500000000⟩

/-- A parse failure in `_parse_args` propagates through `_parse_xy`. -/
lemma parseXY_of_parseArgs_error (s : Option String) (e : String)
    (h : parseArgs s = .error e) : parseXY s = .error e := by
  simp [parseXY, h]

/-- A parse failure in `_parse_args` propagates through `_parse_text`. -/
lemma parseText_of_parseArgs_error (s : Option String) (e : String)
    (h : parseArgs s = .error e) : parseText s = .error e := by
  simp [parseText, h]

/-- C5 counterexample: the capture capability never parses its argument
string, so an argument string that is not JSON at all still succeeds —
`execute_tool("take_screenshot", "not json", ...)` returns the ordinary
success payload instead of the `invalid_arguments` error the claim
requires for every recognized tool. -/
theorem spec_C5_counterexample :
    jsonLoads "not json" = none ∧
    (executeTool "take_screenshot" (some "not json") "id1" cfgEx capEx).toolMsg.content =
      Content.str (okPayload
        [("file", JVal.str "dumps\\screen_0001.png"),
         ("screen_w", JVal.num (PyNum.ofInt 1920)), ("screen_h", JVal.num (PyNum.ofInt 1080))]) :=
  ⟨rfl, rfl⟩

/-- C5 (amended): for every recognized tool other than the capture
capability (`take_screenshot`, which ignores its argument string
entirely), an absent or empty argument string is treated as `{}`; a
string that fails to decode, or decodes to a non-object, yields an
`invalid_arguments` error payload which dispatch surfaces as the tool
message's content with no collaborator call and no observation message;
and argument parsing always returns either an object or such an error
(never an exception). -/
theorem spec_C5_invalid_arguments :
    ∀ s : Option String,
      ((s = none ∨ s = some "") → parseArgs s = .ok []) ∧
      ((∃ kvs, parseArgs s = .ok kvs) ∨
        ∃ m, parseArgs s = .error (errPayload "invalid_arguments" m)) ∧
      (∀ s0, s = some s0 → s0 ≠ "" → jsonLoads s0 = none →
        ∃ m, parseArgs s = .error (errPayload "invalid_arguments" m)) ∧
      (∀ s0 v, s = some s0 → s0 ≠ "" → jsonLoads s0 = some v →
        (∀ kvs, v ≠ JVal.obj kvs) →
        ∃ m, parseArgs s = .error (errPayload "invalid_arguments" m)) ∧
      (∀ name, (name = "move_mouse" ∨ name = "click_mouse" ∨
          name = "type_text" ∨ name = "scroll_down") →
        ∀ e cid cfg cap, parseArgs s = .error e →
          (executeTool name s cid cfg cap).toolMsg = mkToolMsg cid name e ∧
          (executeTool name s cid cfg cap).effects = [] ∧
          (executeTool name s cid cfg cap).userMsg = none) := by
  intro s
  refine ⟨?_, ?_, ?_, ?_, ?_⟩
  · rintro (rfl | rfl) <;> rfl
  · cases s with
    | none => exact .inl ⟨[], rfl⟩
    | some s0 =>
      by_cases h0 : s0 = ""
      · subst h0; exact .inl ⟨[], rfl⟩
      · cases hjl : jsonLoads s0 with
        | none =>
          exact .inr ⟨"JSON decode error: Expecting value", by simp [parseArgs, h0, hjl]⟩
        | some v =>
          cases v with
          | obj kvs => exact .inl ⟨kvs, by simp [parseArgs, h0, hjl]⟩
          | null => exact .inr ⟨"arguments must decode to an object", by simp [parseArgs, h0, hjl]⟩
          | bool b => exact .inr ⟨"arguments must decode to an object", by simp [parseArgs, h0, hjl]⟩
          | num q => exact .inr ⟨"arguments must decode to an object", by simp [parseArgs, h0, hjl]⟩
          | str t => exact .inr ⟨"arguments must decode to an object", by simp [parseArgs, h0, hjl]⟩
          | arr xs => exact .inr ⟨"arguments must decode to an object", by simp [parseArgs, h0, hjl]⟩
  · rintro s0 rfl h0 hjl
    exact ⟨"JSON decode error: Expecting value", by simp [parseArgs, h0, hjl]⟩
  · rintro s0 v rfl h0 hjl hno
    refine ⟨"arguments must decode to an object", ?_⟩
    cases v with
    | obj kvs => exact absurd rfl (hno kvs)
    | null => simp [parseArgs, h0, hjl]
    | bool b => simp [parseArgs, h0, hjl]
    | num q => simp [parseArgs, h0, hjl]
    | str t => simp [parseArgs, h0, hjl]
    | arr xs => simp [parseArgs, h0, hjl]
  · rintro name (rfl | rfl | rfl | rfl) e cid cfg cap h <;>
      simp [executeTool, parseXY_of_parseArgs_error s e h, parseText_of_parseArgs_error s e h, h]

/-- C5 witness: a non-object argument string (`[1,2]`) surfaces as an
`invalid_arguments` tool message for the click capability. -/
theorem spec_C5_invalid_arguments_witness :
    (executeTool "click_mouse" (some "[1,2]") "id1" cfgEx capEx).toolMsg =
      mkToolMsg "id1" "click_mouse" (errPayload "invalid_arguments" "arguments must decode to an object") ∧
    (executeTool "click_mouse" (some "[1,2]") "id1" cfgEx capEx).effects = [] ∧
    (executeTool "click_mouse" (some "[1,2]") "id1" cfgEx capEx).userMsg = none :=
  (spec_C5_invalid_arguments (some "[1,2]")).2.2.2.2 "click_mouse" (.inr (.inl rfl))
    (errPayload "invalid_arguments" "arguments must decode to an object") "id1" cfgEx capEx rfl

/-- Unfold the cross-multiplication order on fractions. -/
lemma Q.lt_def (a b : Q) : (a < b) ↔ a.num * (b.den : Int) < b.num * (a.den : Int) := Iff.rfl

/-- Unfold the cross-multiplication order on fractions. -/
lemma Q.le_def (a b : Q) : (a ≤ b) ↔ a.num * (b.den : Int) ≤ b.num * (a.den : Int) := Iff.rfl

/-- Components of the numerals appearing in the clamp. -/
lemma Q.zero_num : (0 : Q).num = 0 := rfl

/-- Components of the numerals appearing in the clamp. -/
lemma Q.zero_den : (0 : Q).den = 1 := rfl

/-- Components of the numerals appearing in the clamp. -/
lemma Q.thousand_num : (1000 : Q).num = 1000 := rfl

/-- Components of the numerals appearing in the clamp. -/
lemma Q.thousand_den : (1000 : Q).den = 1 := rfl

/-- A value strictly above 1000 is not also strictly below 0. -/
lemma pyLt_thousand_not_neg (x : PyNum) (h : pyLt (.fin 1000) x = true) :
    pyLt x (.fin 0) = false := by
  cases x with
  | nan => exact nomatch h
  | pinf => rfl
  | ninf => exact nomatch h
  | fin v =>
    simp only [pyLt, decide_eq_true_eq] at h
    simp only [pyLt, decide_eq_false_iff_not]
    rw [Q.lt_def] at h ⊢
    simp only [Q.zero_num, Q.zero_den, Q.thousand_num, Q.thousand_den, Nat.cast_one] at h ⊢
    omega

/-- Clamp branch: strictly negative values go to 0. -/
lemma clampCoord_of_lt (x : PyNum) (h : pyLt x (.fin 0) = true) : clampCoord x = .fin 0 := by
  simp [clampCoord, h]

/-- Clamp branch: values strictly above 1000 go to 1000. -/
lemma clampCoord_of_gt (x : PyNum) (h : pyLt (.fin 1000) x = true) :
    clampCoord x = .fin 1000 := by
  simp [clampCoord, pyLt_thousand_not_neg x h, h]

/-- Clamp branch: when both comparisons are false (in-range finite
values, and NaN) the value passes through unchanged. -/
lemma clampCoord_of_mid (x : PyNum) (h1 : pyLt x (.fin 0) = false)
    (h2 : pyLt (.fin 1000) x = false) : clampCoord x = x := by
  simp [clampCoord, h1, h2]

/-- For every non-NaN input the clamp lands in `[0, 1000]`; NaN escapes
both comparisons. -/
lemma clampCoord_bounds (x : PyNum) (h : x ≠ .nan) :
    pyLe (.fin 0) (clampCoord x) = true ∧ pyLe (clampCoord x) (.fin 1000) = true := by
  cases x with
  | nan => exact absurd rfl h
  | pinf => exact ⟨by decide, by decide⟩
  | ninf => exact ⟨by decide, by decide⟩
  | fin v =>
    by_cases h1 : v < 0
    · rw [clampCoord_of_lt _ (by simp only [pyLt, decide_eq_true_eq]; exact h1)]
      exact ⟨by decide, by decide⟩
    · by_cases h2 : (1000 : Q) < v
      · rw [clampCoord_of_gt _ (by simp only [pyLt, decide_eq_true_eq]; exact h2)]
        exact ⟨by decide, by decide⟩
      · rw [clampCoord_of_mid _ (by simp only [pyLt, decide_eq_false_iff_not]; exact h1)
          (by simp only [pyLt, decide_eq_false_iff_not]; exact h2)]
        rw [Q.lt_def] at h1 h2
        simp only [Q.zero_num, Q.zero_den, Q.thousand_num, Q.thousand_den,
          Nat.cast_one] at h1 h2
        constructor
        · show pyLe (.fin 0) (.fin v) = true
          simp only [pyLe, decide_eq_true_eq, Q.le_def, Q.zero_num, Q.zero_den, Nat.cast_one]
          omega
        · show pyLe (.fin v) (.fin 1000) = true
          simp only [pyLe, decide_eq_true_eq, Q.le_def, Q.thousand_num, Q.thousand_den,
            Nat.cast_one]
          omega

/-- Every `_parse_args` failure carries an `invalid_arguments` payload. -/
lemma parseArgs_error_shape (s : Option String) (e : String)
    (h : parseArgs s = .error e) : ∃ m, e = errPayload "invalid_arguments" m := by
  rcases s with _ | s0
  · rw [show parseArgs none = .ok [] from rfl] at h
    exact Except.noConfusion h
  · by_cases h0 : s0 = ""
    · subst h0
      rw [show parseArgs (some "") = .ok [] from rfl] at h
      exact Except.noConfusion h
    · cases hjl : jsonLoads s0 with
      | none =>
        simp only [parseArgs, h0, hjl, if_neg h0] at h
        exact ⟨_, (Except.error.inj h).symm⟩
      | some v =>
        cases v <;> simp only [parseArgs, h0, hjl, if_neg h0] at h <;>
          first
            | exact Except.noConfusion h
            | exact ⟨_, (Except.error.inj h).symm⟩

/-- Every `_parse_xy` failure carries an `invalid_arguments` payload. -/
lemma parseXY_error_shape (s : Option String) (e : String)
    (h : parseXY s = .error e) : ∃ m, e = errPayload "invalid_arguments" m := by
  cases hpa : parseArgs s with
  | error e0 =>
    simp only [parseXY, hpa] at h
    exact (Except.error.inj h) ▸ parseArgs_error_shape s e0 hpa
  | ok kvs =>
    simp only [parseXY, hpa] at h
    cases hgx : kvGet kvs "x" with
    | none =>
      simp only [hgx] at h
      exact ⟨_, (Except.error.inj h).symm⟩
    | some vx =>
      cases hgy : kvGet kvs "y" with
      | none =>
        simp only [hgx, hgy] at h
        exact ⟨_, (Except.error.inj h).symm⟩
      | some vy =>
        simp only [hgx, hgy] at h
        cases hfx : pyFloat vx with
        | none =>
          simp only [hfx] at h
          exact ⟨_, (Except.error.inj h).symm⟩
        | some fx =>
          cases hfy : pyFloat vy with
          | none =>
            simp only [hfx, hfy] at h
            exact ⟨_, (Except.error.inj h).symm⟩
          | some fy =>
            simp only [hfx, hfy] at h
            exact Except.noConfusion h

/-- Every `_parse_text` failure carries an `invalid_arguments` payload. -/
lemma parseText_error_shape (s : Option String) (e : String)
    (h : parseText s = .error e) : ∃ m, e = errPayload "invalid_arguments" m := by
  cases hpa : parseArgs s with
  | error e0 =>
    simp only [parseText, hpa] at h
    exact (Except.error.inj h) ▸ parseArgs_error_shape s e0 hpa
  | ok kvs =>
    simp only [parseText, hpa] at h
    cases hgt : kvGet kvs "text" with
    | none => simp only [hgt] at h; exact Except.noConfusion h
    | some v =>
      simp only [hgt] at h
      cases v <;> exact Except.noConfusion h

/-- The argument string of the C8 counterexample: CPython's
`json.loads` accepts the `NaN` literal by default. -/
def c8ArgStr : String := "\x7b\"x\": NaN, \"y\": 5\x7d"

/-- C8 counterexample: a NaN `x` coordinate decodes, converts, fails
both clamp comparisons and is handed to the collaborator unclamped — a
pair not within `[0, 1000]`, contradicting the claimed guarantee; the
string route `float("nan")` produces the same value. -/
theorem spec_C8_counterexample :
    parseXY (some c8ArgStr) = .ok (PyNum.nan, PyNum.fin ⟨5, 1⟩) ∧
    (executeTool "move_mouse" (some c8ArgStr) "id1" cfgEx capEx).effects =
      [Effect.moveMouse PyNum.nan (PyNum.fin ⟨5, 1⟩)] ∧
    pyLe (.fin 0) PyNum.nan = false ∧ pyLe PyNum.nan (.fin 1000) = false ∧
    pyFloatStr "nan" = some PyNum.nan :=
  ⟨rfl, rfl, rfl, rfl, rfl⟩

/-- C8 (amended): missing or non-`float()`-convertible `x`/`y` yields
`invalid_arguments`; otherwise each coordinate goes through the clamp's
two comparisons (`< 0` → 0, `> 1000` → 1000, both false leave it
unchanged, so `-inf` becomes 0, `+inf` becomes 1000 and NaN passes
through unclamped), the call succeeds with exactly the clamped pair
handed to the collaborator, and every non-NaN coordinate handed over
lies within `[0, 1000]`. -/
theorem spec_C8_coordinate_clamp :
    (∀ x : PyNum,
      (pyLt x (.fin 0) = true → clampCoord x = .fin 0) ∧
      (pyLt (.fin 1000) x = true → clampCoord x = .fin 1000) ∧
      (pyLt x (.fin 0) = false → pyLt (.fin 1000) x = false → clampCoord x = x)) ∧
    (clampCoord .nan = .nan ∧ clampCoord .pinf = .fin 1000 ∧ clampCoord .ninf = .fin 0) ∧
    (∀ (s : Option String) (x y : PyNum), parseXY s = .ok (x, y) →
      (x ≠ .nan → pyLe (.fin 0) x = true ∧ pyLe x (.fin 1000) = true) ∧
      (y ≠ .nan → pyLe (.fin 0) y = true ∧ pyLe y (.fin 1000) = true)) ∧
    (∀ (s : Option String) (kvs : List (String × JVal)), parseArgs s = .ok kvs →
      ((kvGet kvs "x" = none ∨ kvGet kvs "y" = none) →
        parseXY s = .error (errPayload "invalid_arguments" "missing x or y")) ∧
      (∀ vx vy, kvGet kvs "x" = some vx → kvGet kvs "y" = some vy →
        ((pyFloat vx = none ∨ pyFloat vy = none) →
          parseXY s = .error (errPayload "invalid_arguments" "x and y must be numbers")) ∧
        (∀ fx fy, pyFloat vx = some fx → pyFloat vy = some fy →
          parseXY s = .ok (clampCoord fx, clampCoord fy)))) ∧
    (∀ (s : Option String) (x y : PyNum) (cid : String) (cfg : DumpCfg) (cap : CaptureResult),
      parseXY s = .ok (x, y) →
      (executeTool "move_mouse" s cid cfg cap).effects = [Effect.moveMouse x y] ∧
      (executeTool "move_mouse" s cid cfg cap).toolMsg =
        mkToolMsg cid "move_mouse" (okPayload [])) := by
  refine ⟨?_, ⟨rfl, rfl, rfl⟩, ?_, ?_, ?_⟩
  · intro x
    refine ⟨fun h => by simp [clampCoord, h], fun h => ?_, fun h1 h2 => by simp [clampCoord, h1, h2]⟩
    have h0 := pyLt_thousand_not_neg x h
    simp [clampCoord, h0, h]
  · intro s x y h
    cases hpa : parseArgs s with
    | error e0 => simp only [parseXY, hpa] at h; exact Except.noConfusion h
    | ok kvs =>
      simp only [parseXY, hpa] at h
      cases hgx : kvGet kvs "x" with
      | none => simp only [hgx] at h; exact Except.noConfusion h
      | some vx =>
        cases hgy : kvGet kvs "y" with
        | none => simp only [hgx, hgy] at h; exact Except.noConfusion h
        | some vy =>
          simp only [hgx, hgy] at h
          cases hfx : pyFloat vx with
          | none => simp only [hfx] at h; exact Except.noConfusion h
          | some fx =>
            cases hfy : pyFloat vy with
            | none => simp only [hfx, hfy] at h; exact Except.noConfusion h
            | some fy =>
              simp only [hfx, hfy] at h
              have h2 := Except.ok.inj h
              have hx : clampCoord fx = x := congrArg Prod.fst h2
              have hy : clampCoord fy = y := congrArg Prod.snd h2
              constructor
              · intro hxn
                rw [← hx]
                exact clampCoord_bounds fx (fun he => hxn (by rw [← hx, he]; rfl))
              · intro hyn
                rw [← hy]
                exact clampCoord_bounds fy (fun he => hyn (by rw [← hy, he]; rfl))
  · intro s kvs hpa
    constructor
    · rintro (h | h)
      · simp [parseXY, hpa, h]
      · cases hgx : kvGet kvs "x" <;> simp [parseXY, hpa, hgx, h]
    · intro vx vy hgx hgy
      constructor
      · rintro (h | h)
        · simp [parseXY, hpa, hgx, hgy, h]
        · cases hfx : pyFloat vx <;> simp [parseXY, hpa, hgx, hgy, hfx, h]
      · intro fx fy hfx hfy
        simp [parseXY, hpa, hgx, hgy, hfx, hfy]
  · intro s x y cid cfg cap h
    constructor <;> simp [executeTool, h]

/-- C8 witness: `x = -5` is clamped to 0, `y = 2000` to 1000, the
collaborator receives exactly that in-range pair, and `+inf` is clamped
to 1000. -/
theorem spec_C8_coordinate_clamp_witness :
    (executeTool "move_mouse" (some "\x7b\"x\": -5, \"y\": 2000\x7d") "id1" cfgEx capEx).effects =
      [Effect.moveMouse 0 1000] ∧
    clampCoord (.fin ⟨-5, 1⟩) = .fin 0 ∧ clampCoord (.fin ⟨2000, 1⟩) = .fin 1000 ∧
    clampCoord .pinf = .fin 1000 :=
  ⟨(spec_C8_coordinate_clamp.2.2.2.2 (some "\x7b\"x\": -5, \"y\": 2000\x7d") 0 1000
      "id1" cfgEx capEx rfl).1,
   (spec_C8_coordinate_clamp.1 (.fin ⟨-5, 1⟩)).1 (by decide),
   (spec_C8_coordinate_clamp.1 (.fin ⟨2000, 1⟩)).2.1 (by decide),
   (spec_C8_coordinate_clamp.1 .pinf).2.1 (by decide)⟩

/-- C10: every dispatch returns a tool-role message carrying exactly the
given call id and tool name, whose content is the serialization of a
JSON object with a boolean `ok` field; the secondary observation message
exists only for the capture capability. -/
theorem spec_C10_dispatch_shape :
    ∀ (name : String) (s : Option String) (cid : String) (cfg : DumpCfg) (cap : CaptureResult),
      (executeTool name s cid cfg cap).toolMsg.role = "tool" ∧
      (executeTool name s cid cfg cap).toolMsg.toolCallId = some cid ∧
      (executeTool name s cid cfg cap).toolMsg.name = some name ∧
      (∃ v b, (executeTool name s cid cfg cap).toolMsg.content = Content.str (jsonDumps v) ∧
        jget v "ok" = some (JVal.bool b)) ∧
      ((executeTool name s cid cfg cap).userMsg.isSome = true → name = "take_screenshot") := by
  intro name s cid cfg cap
  unfold executeTool
  split_ifs with h1 h2 h3 h4 h5
  · subst h1
    exact ⟨rfl, rfl, rfl, ⟨_, true, rfl, rfl⟩, fun _ => rfl⟩
  · cases hp : parseXY s with
    | error e =>
      simp only [hp]
      rcases parseXY_error_shape s e hp with ⟨m, rfl⟩
      exact ⟨rfl, rfl, rfl, ⟨_, false, rfl, rfl⟩, fun hF => nomatch hF⟩
    | ok xy =>
      obtain ⟨x, y⟩ := xy
      simp only [hp]
      exact ⟨rfl, rfl, rfl, ⟨_, true, rfl, rfl⟩, fun hF => nomatch hF⟩
  · cases hp : parseArgs s with
    | error e =>
      simp only [hp]
      rcases parseArgs_error_shape s e hp with ⟨m, rfl⟩
      exact ⟨rfl, rfl, rfl, ⟨_, false, rfl, rfl⟩, fun hF => nomatch hF⟩
    | ok kvs =>
      simp only [hp]
      exact ⟨rfl, rfl, rfl, ⟨_, true, rfl, rfl⟩, fun hF => nomatch hF⟩
  · cases hp : parseText s with
    | error e =>
      simp only [hp]
      rcases parseText_error_shape s e hp with ⟨m, rfl⟩
      exact ⟨rfl, rfl, rfl, ⟨_, false, rfl, rfl⟩, fun hF => nomatch hF⟩
    | ok t =>
      simp only [hp]
      exact ⟨rfl, rfl, rfl, ⟨_, true, rfl, rfl⟩, fun hF => nomatch hF⟩
  · cases hp : parseArgs s with
    | error e =>
      simp only [hp]
      rcases parseArgs_error_shape s e hp with ⟨m, rfl⟩
      exact ⟨rfl, rfl, rfl, ⟨_, false, rfl, rfl⟩, fun hF => nomatch hF⟩
    | ok kvs =>
      simp only [hp]
      exact ⟨rfl, rfl, rfl, ⟨_, true, rfl, rfl⟩, fun hF => nomatch hF⟩
  · exact ⟨rfl, rfl, rfl, ⟨_, false, rfl, rfl⟩, fun hF => nomatch hF⟩

/-- C10 witness: the capture capability at a concrete configuration, with
the observation-message hypothesis discharged concretely. -/
theorem spec_C10_dispatch_shape_witness :
    (executeTool "take_screenshot" none "id7" cfgEx capEx).toolMsg.role = "tool" ∧
    (executeTool "take_screenshot" none "id7" cfgEx capEx).toolMsg.toolCallId = some "id7" ∧
    "take_screenshot" = "take_screenshot" :=
  ⟨(spec_C10_dispatch_shape "take_screenshot" none "id7" cfgEx capEx).1,
   (spec_C10_dispatch_shape "take_screenshot" none "id7" cfgEx capEx).2.1,
   (spec_C10_dispatch_shape "take_screenshot" none "id7" cfgEx capEx).2.2.2.2 rfl⟩

/-- First scripted response for the C6 counterexample: non-empty content
plus one tool call, so the loop continues. -/
def c6Resp1 : Msg :=
  { role := "assistant", content := .str "hello",
    toolCalls := [{ id := "call1", function := { name := "click_mouse", arguments := some "\x7b\x7d" } }] }

/-- Second scripted response for the C6 counterexample: empty string
content and no tool calls. -/
def c6Resp2 : Msg := { role := "assistant", content := .str "", toolCalls := [] }

/-- C6 counterexample: the candidate answer is overwritten by *any*
string content, including the empty string — after a turn that
remembered "hello", a final assistant message with content `""` and no
tool calls makes the run return `""`, not the most recent non-empty
content as the claim states. -/
theorem spec_C6_counterexample :
    runAgent "sys" "task" 10 2 cfgEx (fun _ => capEx) [c6Resp1, c6Resp2] = some "" ∧
    runAgent "sys" "task" 10 2 cfgEx (fun _ => capEx) [c6Resp1, c6Resp2] ≠ some "hello" := by
  refine ⟨rfl, ?_⟩
  intro h
  rw [show runAgent "sys" "task" 10 2 cfgEx (fun _ => capEx) [c6Resp1, c6Resp2] = some "" from rfl] at h
  exact absurd (Option.some.inj h) (by decide)

/-- C6 (amended): the candidate answer is updated whenever the assistant
message's content is a string — empty or not — and left unchanged
otherwise; on a turn with zero tool calls the loop stops and returns the
just-updated candidate, and an exhausted step budget returns the current
candidate. -/
theorem spec_C6_candidate_answer :
    (∀ (r : Msg) (s last : String), r.content = .str s → candidateUpdate r last = s) ∧
    (∀ (r : Msg) (last : String), (∀ s, r.content ≠ Content.str s) →
      candidateUpdate r last = last) ∧
    (∀ (cap : Nat → CaptureResult) (K n : Nat) (rest ms : List Msg)
      (last : String) (dcfg : DumpCfg) (ti : Nat) (r : Msg), r.toolCalls = [] →
      runAgentLoop cap K (n + 1) (r :: rest) ms last dcfg ti = some (candidateUpdate r last)) ∧
    (∀ (cap : Nat → CaptureResult) (K : Nat) (responses ms : List Msg)
      (last : String) (dcfg : DumpCfg) (ti : Nat),
      runAgentLoop cap K 0 responses ms last dcfg ti = some last) := by
  refine ⟨?_, ?_, ?_, fun _ _ _ _ _ _ _ => rfl⟩
  · intro r s last h
    unfold candidateUpdate
    rw [h]
  · intro r last h
    unfold candidateUpdate
    cases hc : r.content with
    | str s => exact absurd hc (h s)
    | null => rfl
    | parts ps => rfl
  · intro cap K n rest ms last dcfg ti r h
    rw [runAgentLoop, h]

/-- C6 witness: a stop turn with empty-string content returns the empty
string even though a previous candidate existed. -/
theorem spec_C6_candidate_answer_witness :
    runAgentLoop (fun _ => capEx) 2 1 [c6Resp2] [] "previous answer" cfgEx 0 =
      some (candidateUpdate c6Resp2 "previous answer") :=
  spec_C6_candidate_answer.2.2.1 (fun _ => capEx) 2 0 [] [] "previous answer" cfgEx 0 c6Resp2 rfl

/-- A qualifying image-bearing user message used by witnesses and the C2
counterexample. -/
def imgMsgEx : Msg :=
  { role := "user", content := .parts [JVal.obj [("type", JVal.str "image_url")]] }

/-- A tool-role capture result message preceding an image message. -/
def toolOkEx : Msg :=
  mkToolMsg "c1" "take_screenshot" (okPayload [("file", JVal.str "dumps\\screen_0001.png")])

/-- C9: pruning preserves the length and order of the history, touches
no message that is not an image-bearing user message, and changes a
touched message only by replacing its content with a string. -/
theorem spec_C9_prune_frame :
    ∀ (messages : List Msg) (K : Nat),
      (pruneOldScreenshots messages K).length = messages.length ∧
      (∀ j m, messages.get? j = some m → qualifies m = false →
        (pruneOldScreenshots messages K).get? j = some m) ∧
      (∀ j, (pruneOldScreenshots messages K).get? j = messages.get? j ∨
        ∃ m s, messages.get? j = some m ∧ qualifies m = true ∧
          (pruneOldScreenshots messages K).get? j =
            some { m with content := Content.str s }) := by
  intro ms K
  refine ⟨prune_length ms K, fun j m hm hq => prune_get_of_not_qualifies ms K j m hm hq, ?_⟩
  intro j
  unfold pruneOldScreenshots
  split
  · exact .inl rfl
  · by_cases hmem : j ∈ pySliceToNeg (imageIdxs ms) K
    · have hidx := (pySliceToNeg_sublist (imageIdxs ms) K).subset hmem
      rcases mem_imageIdxs hidx with ⟨m, hm, hq⟩
      have hnd : (pySliceToNeg (imageIdxs ms) K).Nodup :=
        List.Nodup.sublist (pySliceToNeg_sublist _ _) (imageIdxs_nodup ms)
      rcases foldl_replaceAt_get_mem _ ms j m hnd hmem hm with ⟨hint, hres⟩
      exact .inr ⟨m, _, hm, hq, hres⟩
    · exact .inl (foldl_replaceAt_get_notMem _ _ _ hmem)

/-- C9 witness: on a concrete four-message history the length is
preserved and the leading tool message is untouched. -/
theorem spec_C9_prune_frame_witness :
    (pruneOldScreenshots [toolOkEx, imgMsgEx, imgMsgEx, imgMsgEx] 1).length = 4 ∧
    (pruneOldScreenshots [toolOkEx, imgMsgEx, imgMsgEx, imgMsgEx] 1).get? 0 = some toolOkEx :=
  ⟨(spec_C9_prune_frame [toolOkEx, imgMsgEx, imgMsgEx, imgMsgEx] 1).1,
   (spec_C9_prune_frame [toolOkEx, imgMsgEx, imgMsgEx, imgMsgEx] 1).2.1 0 toolOkEx rfl rfl⟩

/-- C2 counterexample: with `keep_last = 0` and one image-bearing user
message, Python's `idxs[:-0]` slice is empty, so nothing is replaced and
the history is returned unchanged — the claim requires N − K = 1
replacement for every K ≥ 0. -/
theorem spec_C2_counterexample :
    pruneOldScreenshots [imgMsgEx] 0 = [imgMsgEx] ∧ qualifies imgMsgEx = true :=
  ⟨rfl, rfl⟩

/-- C2 (amended): for every threshold K ≥ 1 pruning is a no-op when at
most K image-bearing user messages exist, and otherwise replaces the
content of exactly the earliest N − K of them (every replaced position
precedes every kept one) with the textual placeholder, leaving all other
positions untouched; for K = 0 the `idxs[:-0]` slice is empty and the
history is returned unchanged. -/
theorem spec_C2_prune_earliest :
    (∀ messages : List Msg, pruneOldScreenshots messages 0 = messages) ∧
    (∀ (messages : List Msg) (K : Nat), 1 ≤ K →
      ((imageIdxs messages).length ≤ K → pruneOldScreenshots messages K = messages) ∧
      (K < (imageIdxs messages).length →
        ((imageIdxs messages).take ((imageIdxs messages).length - K)).length =
          (imageIdxs messages).length - K ∧
        (∀ a ∈ (imageIdxs messages).take ((imageIdxs messages).length - K),
          ∀ b ∈ (imageIdxs messages).drop ((imageIdxs messages).length - K), a < b) ∧
        (∀ j ∈ (imageIdxs messages).take ((imageIdxs messages).length - K),
          ∃ m hint, messages.get? j = some m ∧ qualifies m = true ∧
            (pruneOldScreenshots messages K).get? j =
              some { m with content := Content.str ("captured image data" ++ hint) }) ∧
        (∀ j, j ∉ (imageIdxs messages).take ((imageIdxs messages).length - K) →
          (pruneOldScreenshots messages K).get? j = messages.get? j))) := by
  constructor
  · intro ms
    unfold pruneOldScreenshots
    split
    · rfl
    · simp [pySliceToNeg]
  · intro ms K hK
    constructor
    · intro h
      unfold pruneOldScreenshots
      rw [if_pos h]
    · intro hlt
      have hslice : pySliceToNeg (imageIdxs ms) K =
          (imageIdxs ms).take ((imageIdxs ms).length - K) := by
        unfold pySliceToNeg
        rw [if_neg (by omega)]
      refine ⟨?_, ?_, ?_, ?_⟩
      · rw [List.length_take]
        omega
      · have hp := imageIdxs_pairwise ms
        conv at hp => rw [← List.take_append_drop ((imageIdxs ms).length - K) (imageIdxs ms)]
        exact (List.pairwise_append.mp hp).2.2
      · intro j hj
        have hidx := (List.take_sublist _ _).subset hj
        rcases mem_imageIdxs hidx with ⟨m, hm, hq⟩
        have hnd : ((imageIdxs ms).take ((imageIdxs ms).length - K)).Nodup :=
          List.Nodup.sublist (List.take_sublist _ _) (imageIdxs_nodup ms)
        unfold pruneOldScreenshots
        rw [if_neg (by omega), hslice]
        rcases foldl_replaceAt_get_mem _ ms j m hnd hj hm with ⟨hint, hres⟩
        exact ⟨m, hint, hm, hq, hres⟩
      · intro j hj
        unfold pruneOldScreenshots
        rw [if_neg (by omega), hslice]
        exact foldl_replaceAt_get_notMem _ _ _ hj

/-- C2 witness: a history under the threshold is untouched, and with
four messages (three image-bearing) and K = 1 the most recent image
message keeps its content. -/
theorem spec_C2_prune_earliest_witness :
    pruneOldScreenshots [imgMsgEx] 5 = [imgMsgEx] ∧
    (pruneOldScreenshots [toolOkEx, imgMsgEx, imgMsgEx, imgMsgEx] 1).get? 3 =
      [toolOkEx, imgMsgEx, imgMsgEx, imgMsgEx].get? 3 :=
  ⟨(spec_C2_prune_earliest.2 [imgMsgEx] 5 (by decide)).1 (by decide),
   ((spec_C2_prune_earliest.2 [toolOkEx, imgMsgEx, imgMsgEx, imgMsgEx] 1 (by decide)).2
     (by decide)).2.2.2 3 (by decide)⟩

/-- Every branch of `execute_tool` builds its result via `mkToolMsg`. -/
lemma executeTool_toolMsg_shape (name : String) (s : Option String) (cid : String)
    (cfg : DumpCfg) (cap : CaptureResult) :
    ∃ p, (executeTool name s cid cfg cap).toolMsg = mkToolMsg cid name p := by
  unfold executeTool
  split_ifs with h1 h2 h3 h4 h5
  · exact ⟨_, rfl⟩
  · cases hp : parseXY s with
    | error e => simp only [hp]; exact ⟨_, rfl⟩
    | ok xy => obtain ⟨x, y⟩ := xy; simp only [hp]; exact ⟨_, rfl⟩
  · cases hp : parseArgs s with
    | error e => simp only [hp]; exact ⟨_, rfl⟩
    | ok kvs => simp only [hp]; exact ⟨_, rfl⟩
  · cases hp : parseText s with
    | error e => simp only [hp]; exact ⟨_, rfl⟩
    | ok t => simp only [hp]; exact ⟨_, rfl⟩
  · cases hp : parseArgs s with
    | error e => simp only [hp]; exact ⟨_, rfl⟩
    | ok kvs => simp only [hp]; exact ⟨_, rfl⟩
  · exact ⟨_, rfl⟩

/-- Tool-role result messages never qualify for pruning. -/
lemma qualifies_mkToolMsg (cid nm p : String) : qualifies (mkToolMsg cid nm p) = false := rfl

/-- Synthesized rejection messages never qualify for pruning. -/
lemma qualifies_tooManyMsg (tc : ToolCall) : qualifies (tooManyMsg tc) = false := rfl

/-- Indexing the first element after a prefix. -/
lemma get_append_at_len {α : Type} (a c : List α) (x : α) :
    (a ++ (x :: c)).get? a.length = some x := by
  have h := get_append_mid a (x :: c) 0
  simpa using h

/-- C1: when the assistant message carries `M = 1 + tcs.length ≥ 2` tool
calls, the turn's output history contains, directly after the assistant
message, one synthesized `too_many_tool_calls` tool message per excess
call — in call order, each carrying that call's id and function name —
followed immediately by the dispatch result of the first call; only the
first call's effects ever reach the collaborators; and the history
length accounts for exactly those M − 1 rejections, one result and the
optional observation message. -/
theorem spec_C1_too_many_tool_calls :
    ∀ (ms : List Msg) (r : Msg) (tc0 : ToolCall) (tcs : List ToolCall)
      (dcfg : DumpCfg) (cap : CaptureResult) (K : Nat),
      r.toolCalls = tc0 :: tcs → tcs ≠ [] →
      (∀ tcE : ToolCall, tooManyMsg tcE =
        { role := "tool",
          content := Content.str
            (errPayload "too_many_tool_calls" "only one tool call per response allowed"),
          toolCallId := some tcE.id, name := some tcE.function.name, toolCalls := [] }) ∧
      (∀ k tcE, tcs.get? k = some tcE →
        (dispatchTurn (ms ++ [r]) r tc0 dcfg cap K).1.get? (ms.length + 1 + k) =
          some (tooManyMsg tcE)) ∧
      ((dispatchTurn (ms ++ [r]) r tc0 dcfg cap K).1.get? (ms.length + 1 + tcs.length) =
        some (executeTool tc0.function.name tc0.function.arguments tc0.id dcfg cap).toolMsg) ∧
      ((dispatchTurn (ms ++ [r]) r tc0 dcfg cap K).1.length =
        ms.length + 2 + tcs.length +
          (executeTool tc0.function.name tc0.function.arguments tc0.id dcfg cap).userMsg.toList.length) ∧
      ((dispatchTurn (ms ++ [r]) r tc0 dcfg cap K).2.2 =
        (executeTool tc0.function.name tc0.function.arguments tc0.id dcfg cap).effects) := by
  intro ms r tc0 tcs dcfg cap K h _
  have hdrop : r.toolCalls.drop 1 = tcs := by
    rw [h]
    rfl
  have hgetErr : ∀ (X : List Msg) (k : Nat) (tcE : ToolCall), tcs.get? k = some tcE →
      (ms ++ (r :: (tcs.map tooManyMsg ++ X))).get? (ms.length + 1 + k) =
        some (tooManyMsg tcE) := by
    intro X k tcE htc
    have hk : k < (tcs.map tooManyMsg).length := by
      rw [List.length_map]
      exact (List.get?_eq_some.mp htc).1
    have hidx : ms.length + 1 + k = ms.length + (k + 1) := by omega
    rw [hidx, get_append_mid, List.get?_cons_succ, List.get?_append hk, List.get?_map, htc]
    rfl
  have hgetTool : ∀ (X : List Msg) (x : Msg),
      (ms ++ (r :: (tcs.map tooManyMsg ++ (x :: X)))).get? (ms.length + 1 + tcs.length) =
        some x := by
    intro X x
    have hidx : ms.length + 1 + tcs.length = ms.length + (tcs.length + 1) := by omega
    rw [hidx, get_append_mid, List.get?_cons_succ,
      show tcs.length = (tcs.map tooManyMsg).length from (List.length_map _ _).symm,
      get_append_at_len]
  refine ⟨fun _ => rfl, ?_, ?_, ?_, ?_⟩
  · intro k tcE htc
    cases hu : (executeTool tc0.function.name tc0.function.arguments tc0.id dcfg cap).userMsg with
    | none =>
      simp only [dispatchTurn, hdrop, hu, List.append_assoc, List.cons_append,
        List.singleton_append, List.nil_append]
      exact hgetErr _ k tcE htc
    | some um =>
      simp only [dispatchTurn, hdrop, hu, List.append_assoc, List.cons_append,
        List.singleton_append, List.nil_append]
      exact prune_get_of_not_qualifies _ K _ _ (hgetErr _ k tcE htc) (qualifies_tooManyMsg tcE)
  · cases hu : (executeTool tc0.function.name tc0.function.arguments tc0.id dcfg cap).userMsg with
    | none =>
      simp only [dispatchTurn, hdrop, hu, List.append_assoc, List.cons_append,
        List.singleton_append, List.nil_append]
      exact hgetTool [] _
    | some um =>
      simp only [dispatchTurn, hdrop, hu, List.append_assoc, List.cons_append,
        List.singleton_append, List.nil_append]
      rcases executeTool_toolMsg_shape tc0.function.name tc0.function.arguments tc0.id dcfg cap
        with ⟨p, hp⟩
      exact prune_get_of_not_qualifies _ K _ _ (hgetTool [um] _)
        (by rw [hp]; exact qualifies_mkToolMsg _ _ _)
  · cases hu : (executeTool tc0.function.name tc0.function.arguments tc0.id dcfg cap).userMsg with
    | none =>
      simp only [dispatchTurn, hdrop, hu, Option.toList]
      simp [List.length_append]
      omega
    | some um =>
      simp only [dispatchTurn, hdrop, hu, Option.toList]
      rw [prune_length]
      simp [List.length_append]
      omega
  · cases hu : (executeTool tc0.function.name tc0.function.arguments tc0.id dcfg cap).userMsg with
    | none => simp only [dispatchTurn, hdrop, hu]
    | some um => simp only [dispatchTurn, hdrop, hu]

/-- The first tool call of the C1 witness turn. -/
def c1TcA : ToolCall := { id := "call-a", function := { name := "click_mouse", arguments := none } }

/-- The excess tool call of the C1 witness turn. -/
def c1TcB : ToolCall := { id := "call-b", function := { name := "scroll_down", arguments := none } }

/-- The assistant message of the C1 witness turn, carrying two tool
calls. -/
def c1Resp : Msg := { role := "assistant", content := .null, toolCalls := [c1TcA, c1TcB] }

/-- C1 witness: with two requested calls, the rejection for the second
call sits directly after the assistant message and the result of the
first call directly after it. -/
theorem spec_C1_too_many_tool_calls_witness :
    (dispatchTurn ([] ++ [c1Resp]) c1Resp c1TcA cfgEx capEx 2).1.get? (0 + 1 + 0) =
      some (tooManyMsg c1TcB) ∧
    (dispatchTurn ([] ++ [c1Resp]) c1Resp c1TcA cfgEx capEx 2).1.get? (0 + 1 + 1) =
      some (executeTool c1TcA.function.name c1TcA.function.arguments c1TcA.id cfgEx capEx).toolMsg :=
  ⟨(spec_C1_too_many_tool_calls [] c1Resp c1TcA [c1TcB] cfgEx capEx 2 rfl
      (List.cons_ne_nil _ _)).2.1 0 c1TcB rfl,
   (spec_C1_too_many_tool_calls [] c1Resp c1TcA [c1TcB] cfgEx capEx 2 rfl
      (List.cons_ne_nil _ _)).2.2.1⟩
